import Mathlib

set_option maxHeartbeats 1000000

/-!
Verification of the fastrec reconnaissance pipeline (src/fastrec.py) and its
screenshot engine subshot (src/subshot.py).

Strings are modelled as `List Char`.  External effects (the headless browser,
spawned processes, the filesystem) are modelled as explicit outcome parameters;
the pure control flow of the Python source is translated directly.
-/

/-- Python whitespace for str.strip() / the regex class \s in Python 3 str mode:
the ASCII whitespace characters, the information-separator controls 0x1c-0x1f,
NEL, NBSP and the Unicode space separators. -/
def isPySpace (c : Char) : Bool :=
  c == ' ' || c == '\t' || c == '\n' || c == '\r' || c == '\x0b' || c == '\x0c' ||
  (decide (0x1c ≤ c.toNat) && decide (c.toNat ≤ 0x1f)) ||
  c.toNat == 0x85 || c.toNat == 0xa0 || c.toNat == 0x1680 ||
  (decide (0x2000 ≤ c.toNat) && decide (c.toNat ≤ 0x200a)) ||
  c.toNat == 0x2028 || c.toNat == 0x2029 || c.toNat == 0x202f ||
  c.toNat == 0x205f || c.toNat == 0x3000

/-- Drop the trailing run of characters satisfying p: the right-hand half of
Python str.strip(chars). -/
def dropTrail (p : Char → Bool) : List Char → List Char
  | [] => []
  | c :: rest =>
    match dropTrail p rest with
    | [] => if p c then [] else [c]
    | r => c :: r

/-- Python str.strip(chars): remove leading and trailing characters satisfying p. -/
def stripBoth (p : Char → Bool) (s : List Char) : List Char :=
  dropTrail p (s.dropWhile p)

/-- Python str.strip() with no argument (whitespace at both ends). -/
def pyStrip (s : List Char) : List Char :=
  stripBoth isPySpace s

/-- The character class of re.sub in sanitize_filename:
the regex [<>:"/\\|?*\s] from src/subshot.py line 198. -/
def isIllegal (c : Char) : Bool :=
  c == '<' || c == '>' || c == ':' || c == '"' || c == '/' || c == '\\' ||
  c == '|' || c == '?' || c == '*' || isPySpace c

/-- The character set of str.strip in sanitize_filename: dots and hyphens. -/
def isDotDash (c : Char) : Bool :=
  c == '.' || c == '-'

/-- Python str.replace for a non-empty pattern: scan left to right, replace
non-overlapping occurrences, never rescan emitted replacement text.  The fuel
argument only forces termination; replaceAll supplies fuel ≥ s.length so the
fuel-exhausted arm is unreachable (each step consumes at least one character). -/
def replaceGo (pat repl : List Char) : Nat → List Char → List Char
  | _, [] => []
  | 0, s => s
  | fuel + 1, c :: rest =>
    if pat.isPrefixOf (c :: rest) && !pat.isEmpty then
      repl ++ replaceGo pat repl fuel (List.drop pat.length (c :: rest))
    else
      c :: replaceGo pat repl fuel rest

/-- Python s.replace(pat, repl) for the non-empty literal patterns used by
sanitize_filename. -/
def replaceAll (pat repl s : List Char) : List Char :=
  replaceGo pat repl s.length s

/-- The re.sub step of sanitize_filename: every character of the illegal class
is replaced by a hyphen. -/
def subIllegal (s : List Char) : List Char :=
  s.map fun c => if isIllegal c then '-' else c

/-- src/subshot.py sanitize_filename: strip the scheme ('https://' first, then
'http://'), replace characters illegal in filenames by hyphens, then strip
leading and trailing dots and hyphens. -/
def sanitize_filename (s : List Char) : List Char :=
  stripBoth isDotDash (subIllegal (replaceAll "http://".data [] (replaceAll "https://".data [] s)))

/-- src/subshot.py normalize_url: strip surrounding whitespace, then prepend
'https://' unless the stripped string already starts with a scheme. -/
def normalize_url (s : List Char) : List Char :=
  let t := pyStrip s
  if ("http://".data).isPrefixOf t || ("https://".data).isPrefixOf t then t
  else "https://".data ++ t

/-- src/subshot.py load_list, with the file contents given as its list of raw
lines: keep each line stripped of surrounding whitespace, skipping lines that
strip to nothing. -/
def load_list (lines : List (List Char)) : List (List Char) :=
  (lines.map pyStrip).filter fun l => !l.isEmpty

/-! Helper lemmas about the string primitives. -/

theorem mem_of_mem_dropWhile {p : Char → Bool} {s : List Char} {x : Char}
    (h : x ∈ s.dropWhile p) : x ∈ s := by
  induction s with
  | nil => simp at h
  | cons c rest ih =>
    by_cases hc : p c
    · rw [List.dropWhile_cons, if_pos hc] at h
      exact List.mem_cons_of_mem _ (ih h)
    · rwa [List.dropWhile_cons, if_neg hc] at h

theorem head_dropWhile_not {p : Char → Bool} {s : List Char} {c : Char}
    (h : (s.dropWhile p).head? = some c) : p c = false := by
  induction s with
  | nil => simp at h
  | cons a rest ih =>
    by_cases ha : p a
    · rw [List.dropWhile_cons, if_pos ha] at h
      exact ih h
    · rw [List.dropWhile_cons, if_neg ha] at h
      simp at h
      rw [← h]
      exact Bool.eq_false_iff.mpr ha

theorem dropWhile_head_neg {p : Char → Bool} {s : List Char}
    (h : ∀ c, s.head? = some c → p c = false) : s.dropWhile p = s := by
  cases s with
  | nil => rfl
  | cons a rest =>
    rw [List.dropWhile_cons, if_neg]
    simp [h a rfl]

theorem mem_of_mem_dropTrail {p : Char → Bool} {s : List Char} {x : Char}
    (h : x ∈ dropTrail p s) : x ∈ s := by
  induction s with
  | nil => simp [dropTrail] at h
  | cons c rest ih =>
    rw [dropTrail] at h
    cases hr : dropTrail p rest with
    | nil =>
      rw [hr] at h
      by_cases hc : p c
      · simp [hc] at h
      · simp [hc] at h
        simp [h]
    | cons a as =>
      rw [hr] at h
      rcases List.mem_cons.mp h with h1 | h2
      · simp [h1]
      · exact List.mem_cons_of_mem _ (ih (hr ▸ h2))

theorem head_of_dropTrail {p : Char → Bool} {s : List Char} {c : Char}
    (h : (dropTrail p s).head? = some c) : s.head? = some c := by
  induction s with
  | nil => simp [dropTrail] at h
  | cons a rest ih =>
    rw [dropTrail] at h
    cases hr : dropTrail p rest with
    | nil =>
      rw [hr] at h
      by_cases ha : p a
      · simp [ha] at h
      · simp [ha] at h
        simp [h]
    | cons b bs =>
      rw [hr] at h
      simp at h
      simp [h]

theorem last_dropTrail_not {p : Char → Bool} {s : List Char} {c : Char}
    (h : (dropTrail p s).getLast? = some c) : p c = false := by
  induction s with
  | nil => simp [dropTrail] at h
  | cons a rest ih =>
    rw [dropTrail] at h
    cases hr : dropTrail p rest with
    | nil =>
      rw [hr] at h
      by_cases ha : p a
      · simp [ha] at h
      · simp [ha] at h
        rw [← h]
        exact Bool.eq_false_iff.mpr ha
    | cons b bs =>
      rw [hr] at h
      rw [List.getLast?_cons_cons] at h
      exact ih (hr ▸ h)

theorem dropTrail_last_neg {p : Char → Bool} {s : List Char}
    (h : ∀ c, s.getLast? = some c → p c = false) : dropTrail p s = s := by
  induction s with
  | nil => rfl
  | cons a rest ih =>
    rw [dropTrail]
    cases rest with
    | nil =>
      have ha : p a = false := h a rfl
      simp [dropTrail, ha]
    | cons b bs =>
      have hrest : dropTrail p (b :: bs) = b :: bs := by
        apply ih
        intro c hc
        apply h
        rwa [List.getLast?_cons_cons]
      rw [hrest]

theorem dropTrail_idem (p : Char → Bool) (s : List Char) :
    dropTrail p (dropTrail p s) = dropTrail p s := by
  apply dropTrail_last_neg
  intro c hc
  exact last_dropTrail_not hc

theorem stripBoth_idem (p : Char → Bool) (s : List Char) :
    stripBoth p (stripBoth p s) = stripBoth p s := by
  unfold stripBoth
  rw [dropWhile_head_neg (fun c hc => head_dropWhile_not (head_of_dropTrail hc))]
  exact dropTrail_idem p _

theorem mem_of_isPrefixOf {l s : List Char} (h : l.isPrefixOf s = true) :
    ∀ x ∈ l, x ∈ s := by
  induction l generalizing s with
  | nil => simp
  | cons a as ih =>
    cases s with
    | nil => simp [List.isPrefixOf] at h
    | cons b bs =>
      simp only [List.isPrefixOf, Bool.and_eq_true, beq_iff_eq] at h
      intro x hx
      rcases List.mem_cons.mp hx with h1 | h2
      · simp [h1, h.1]
      · exact List.mem_cons_of_mem _ (ih h.2 x h2)

theorem isPrefixOf_append_self (l t : List Char) : l.isPrefixOf (l ++ t) = true := by
  induction l with
  | nil => simp [List.isPrefixOf]
  | cons a as ih => simp [List.isPrefixOf, ih]

theorem replaceGo_no_occurrence {pat repl : List Char} {x : Char} (hx : x ∈ pat) :
    ∀ (fuel : Nat) (s : List Char), x ∉ s → replaceGo pat repl fuel s = s := by
  intro fuel
  induction fuel with
  | zero =>
    intro s _
    cases s <;> rfl
  | succ n ih =>
    intro s hs
    cases s with
    | nil => rfl
    | cons c rest =>
      have hp : pat.isPrefixOf (c :: rest) = false := by
        by_contra hcon
        have : pat.isPrefixOf (c :: rest) = true := by
          revert hcon
          cases pat.isPrefixOf (c :: rest) <;> simp
        exact hs (mem_of_isPrefixOf this x hx)
      rw [replaceGo, hp]
      simp only [Bool.false_and, Bool.false_eq_true, if_false]
      have hrest : x ∉ rest := fun hmem => hs (List.mem_cons_of_mem _ hmem)
      rw [ih rest hrest]

theorem replaceAll_no_occurrence {pat repl s : List Char} {x : Char}
    (hx : x ∈ pat) (hs : x ∉ s) : replaceAll pat repl s = s :=
  replaceGo_no_occurrence hx s.length s hs

theorem isIllegal_of_mem_subIllegal {s : List Char} {x : Char}
    (h : x ∈ subIllegal s) : isIllegal x = false := by
  simp only [subIllegal, List.mem_map] at h
  obtain ⟨c, _, hc⟩ := h
  by_cases hi : isIllegal c
  · rw [if_pos hi] at hc
    rw [← hc]
    decide
  · rw [if_neg hi] at hc
    rw [← hc]
    exact Bool.eq_false_iff.mpr hi

theorem subIllegal_id {l : List Char} (h : ∀ x ∈ l, isIllegal x = false) :
    subIllegal l = l := by
  induction l with
  | nil => rfl
  | cons c r ih =>
    have hc : isIllegal c = false := h c (List.mem_cons_self c r)
    simp only [subIllegal, List.map_cons, hc, Bool.false_eq_true, if_false, List.cons.injEq,
      true_and]
    exact ih fun x hx => h x (List.mem_cons_of_mem _ hx)

theorem mem_sanitize_not_illegal (s : List Char) :
    ∀ x ∈ sanitize_filename s, isIllegal x = false := by
  intro x hx
  unfold sanitize_filename stripBoth at hx
  exact isIllegal_of_mem_subIllegal (mem_of_mem_dropWhile (mem_of_mem_dropTrail hx))

/-- Claim C4: filename sanitization is idempotent, its result contains no path
separator, and the result neither starts nor ends with a dot or a hyphen. -/
theorem sanitize_filename_idempotent_safe (s : List Char) :
    sanitize_filename (sanitize_filename s) = sanitize_filename s
    ∧ (∀ c ∈ sanitize_filename s, c ≠ '/' ∧ c ≠ '\\')
    ∧ (∀ c, (sanitize_filename s).head? = some c → c ≠ '.' ∧ c ≠ '-')
    ∧ (∀ c, (sanitize_filename s).getLast? = some c → c ≠ '.' ∧ c ≠ '-') := by
  refine ⟨?_, ?_, ?_, ?_⟩
  · have hno := mem_sanitize_not_illegal s
    have hslash : '/' ∉ sanitize_filename s := by
      intro hmem
      exact absurd (hno _ hmem) (by decide)
    show stripBoth isDotDash (subIllegal (replaceAll "http://".data []
        (replaceAll "https://".data [] (sanitize_filename s)))) = sanitize_filename s
    rw [replaceAll_no_occurrence (show '/' ∈ "https://".data by decide) hslash,
      replaceAll_no_occurrence (show '/' ∈ "http://".data by decide) hslash,
      subIllegal_id hno]
    show stripBoth isDotDash (stripBoth isDotDash
        (subIllegal (replaceAll "http://".data [] (replaceAll "https://".data [] s))))
      = stripBoth isDotDash (subIllegal (replaceAll "http://".data [] (replaceAll "https://".data [] s)))
    exact stripBoth_idem _ _
  · intro c hc
    have hno := mem_sanitize_not_illegal s c hc
    constructor
    · rintro rfl
      exact absurd hno (by decide)
    · rintro rfl
      exact absurd hno (by decide)
  · intro c hc
    unfold sanitize_filename stripBoth at hc
    have hdd : isDotDash c = false := head_dropWhile_not (head_of_dropTrail hc)
    simp only [isDotDash, Bool.or_eq_false_iff, beq_eq_false_iff_ne, ne_eq] at hdd
    exact hdd
  · intro c hc
    unfold sanitize_filename stripBoth at hc
    have hdd : isDotDash c = false := last_dropTrail_not hc
    simp only [isDotDash, Bool.or_eq_false_iff, beq_eq_false_iff_ne, ne_eq] at hdd
    exact hdd

/-- Witness for C4 at a concrete input. -/
theorem sanitize_filename_idempotent_safe_used :
    sanitize_filename (sanitize_filename "https://a b.com/".data)
        = sanitize_filename "https://a b.com/".data
    ∧ ('a' ≠ '/' ∧ 'a' ≠ '\\') := by
  refine ⟨(sanitize_filename_idempotent_safe ("https://a b.com/".data)).1, ?_⟩
  exact (sanitize_filename_idempotent_safe ("https://a b.com/".data)).2.1 'a' (by decide)

theorem normalize_url_def (x : List Char) :
    normalize_url x =
      if ("http://".data).isPrefixOf (pyStrip x) || ("https://".data).isPrefixOf (pyStrip x)
      then pyStrip x else "https://".data ++ pyStrip x := rfl

theorem getLast_append_right {l : List Char} (b : Char) (bs : List Char) :
    (l ++ b :: bs).getLast? = (b :: bs).getLast? := by
  rw [List.getLast?_append]
  cases h : (b :: bs).getLast? with
  | some c => rfl
  | none => simp at h

theorem pyStrip_scheme_append (t : List Char)
    (ht : ∀ c, t.getLast? = some c → isPySpace c = false) :
    pyStrip ("https://".data ++ t) = "https://".data ++ t := by
  unfold pyStrip stripBoth
  have hcons : "https://".data ++ t = 'h' :: ("ttps://".data ++ t) := rfl
  have hd : ("https://".data ++ t).dropWhile isPySpace = "https://".data ++ t := by
    apply dropWhile_head_neg
    intro c hc
    rw [hcons] at hc
    simp at hc
    rw [← hc]
    decide
  rw [hd]
  apply dropTrail_last_neg
  intro c hc
  cases t with
  | nil =>
    rw [List.append_nil] at hc
    have : ("https://".data).getLast? = some '/' := by decide
    rw [this] at hc
    cases hc
    decide
  | cons b bs =>
    rw [getLast_append_right] at hc
    exact ht c hc

theorem pyStrip_of_pyStrip_last {x : List Char} {c : Char}
    (hc : (pyStrip x).getLast? = some c) : isPySpace c = false := by
  unfold pyStrip stripBoth at hc
  exact last_dropTrail_not hc

/-- Counterexample for C5 as stated: an input that already starts with
'http://' but carries trailing whitespace is not returned unchanged —
normalize_url strips the whitespace. -/
theorem normalize_url_unchanged_cex :
    normalize_url "http://example.com ".data = "http://example.com".data
    ∧ "http://example.com".data ≠ "http://example.com ".data := by
  constructor
  · decide
  · decide

theorem exists_append_of_isPrefixOf {l s : List Char} (h : l.isPrefixOf s = true) :
    ∃ t, s = l ++ t := by
  induction l generalizing s with
  | nil => exact ⟨s, rfl⟩
  | cons a as ih =>
    cases s with
    | nil => simp [List.isPrefixOf] at h
    | cons b bs =>
      simp only [List.isPrefixOf, Bool.and_eq_true, beq_iff_eq] at h
      obtain ⟨t, ht⟩ := ih h.2
      refine ⟨t, ?_⟩
      rw [ht, List.cons_append, h.1]

theorem dropTrail_append_of_last_not {p : Char → Bool} :
    ∀ (l t : List Char), (∀ c, l.getLast? = some c → p c = false) → l ≠ [] →
      dropTrail p (l ++ t) = l ++ dropTrail p t := by
  intro l
  induction l with
  | nil =>
    intro t _ hne
    exact absurd rfl hne
  | cons a l' ih =>
    intro t hlast _
    cases l' with
    | nil =>
      have ha : p a = false := hlast a rfl
      show dropTrail p (a :: t) = a :: dropTrail p t
      rw [dropTrail]
      cases hdt : dropTrail p t with
      | nil => simp [ha]
      | cons r rs => rfl
    | cons b l'' =>
      have h2 : dropTrail p ((b :: l'') ++ t) = (b :: l'') ++ dropTrail p t :=
        ih t (fun c hc => hlast c (by rwa [List.getLast?_cons_cons])) (by simp)
      show dropTrail p (a :: ((b :: l'') ++ t)) = a :: ((b :: l'') ++ dropTrail p t)
      rw [dropTrail, h2]
      rfl

theorem pyStrip_scheme_general {pre : List Char} (t : List Char)
    (hhead : ∀ c, pre.head? = some c → isPySpace c = false)
    (hlast : ∀ c, pre.getLast? = some c → isPySpace c = false)
    (hne : pre ≠ []) :
    pyStrip (pre ++ t) = pre ++ dropTrail isPySpace t := by
  unfold pyStrip stripBoth
  have hd : (pre ++ t).dropWhile isPySpace = pre ++ t := by
    apply dropWhile_head_neg
    intro c hc
    apply hhead
    cases pre with
    | nil => exact absurd rfl hne
    | cons a pre' =>
      simp at hc
      simp [hc]
  rw [hd]
  exact dropTrail_append_of_last_not pre t hlast hne

theorem normalize_url_strips_scheme {x : List Char}
    (hpre : (("http://".data).isPrefixOf x || ("https://".data).isPrefixOf x) = true) :
    normalize_url x = pyStrip x := by
  rcases Bool.or_eq_true_iff.mp hpre with h | h
  · obtain ⟨t, ht⟩ := exists_append_of_isPrefixOf h
    subst ht
    have hstrip : pyStrip ("http://".data ++ t) = "http://".data ++ dropTrail isPySpace t :=
      pyStrip_scheme_general t
        (fun c hc => by
          have h0 : ("http://".data : List Char).head? = some 'h' := rfl
          rw [h0] at hc
          rw [← Option.some.inj hc]
          decide)
        (fun c hc => by
          have h0 : ("http://".data : List Char).getLast? = some '/' := by decide
          rw [h0] at hc
          rw [← Option.some.inj hc]
          decide)
        (by decide)
    have hcond : (("http://".data).isPrefixOf ("http://".data ++ dropTrail isPySpace t)
        || ("https://".data).isPrefixOf ("http://".data ++ dropTrail isPySpace t)) = true := by
      rw [isPrefixOf_append_self]
      simp
    rw [normalize_url_def, hstrip, if_pos hcond]
  · obtain ⟨t, ht⟩ := exists_append_of_isPrefixOf h
    subst ht
    have hstrip : pyStrip ("https://".data ++ t) = "https://".data ++ dropTrail isPySpace t :=
      pyStrip_scheme_general t
        (fun c hc => by
          have h0 : ("https://".data : List Char).head? = some 'h' := rfl
          rw [h0] at hc
          rw [← Option.some.inj hc]
          decide)
        (fun c hc => by
          have h0 : ("https://".data : List Char).getLast? = some '/' := by decide
          rw [h0] at hc
          rw [← Option.some.inj hc]
          decide)
        (by decide)
    have hcond : (("http://".data).isPrefixOf ("https://".data ++ dropTrail isPySpace t)
        || ("https://".data).isPrefixOf ("https://".data ++ dropTrail isPySpace t)) = true := by
      rw [isPrefixOf_append_self]
      simp
    rw [normalize_url_def, hstrip, if_pos hcond]

/-- Claim C5 (amended): the scheme is defaulted to https when absent; any
input already starting with 'http://' or 'https://' is returned with only its
surrounding whitespace stripped — hence unchanged exactly when it carries no
surrounding whitespace — and normalization is idempotent. -/
theorem normalize_url_amended (x : List Char) :
    normalize_url "example.com".data = "https://example.com".data
    ∧ ((("http://".data).isPrefixOf x || ("https://".data).isPrefixOf x) = true →
        normalize_url x = pyStrip x ∧ (normalize_url x = x ↔ pyStrip x = x))
    ∧ normalize_url (normalize_url x) = normalize_url x := by
  refine ⟨by decide, ?_, ?_⟩
  · intro hpre
    have hs := normalize_url_strips_scheme hpre
    refine ⟨hs, ?_, ?_⟩
    · intro h
      rw [← hs]
      exact h
    · intro h
      rw [hs, h]
  · by_cases hc : (("http://".data).isPrefixOf (pyStrip x)
        || ("https://".data).isPrefixOf (pyStrip x)) = true
    · rw [normalize_url_def x, if_pos hc]
      have hs : pyStrip (pyStrip x) = pyStrip x := stripBoth_idem isPySpace x
      rw [normalize_url_def, hs, if_pos hc]
    · rw [normalize_url_def x, if_neg hc]
      have hs : pyStrip ("https://".data ++ pyStrip x) = "https://".data ++ pyStrip x :=
        pyStrip_scheme_append (pyStrip x) fun c hcl => pyStrip_of_pyStrip_last hcl
      rw [normalize_url_def, hs]
      have hpre : ("https://".data).isPrefixOf ("https://".data ++ pyStrip x) = true :=
        isPrefixOf_append_self _ _
      rw [hpre]
      simp

/-- Witness for the amended C5: a scheme-prefixed input carrying trailing
whitespace is returned stripped, and is unchanged exactly when stripping it is
the identity. -/
theorem normalize_url_amended_used :
    normalize_url "http://a ".data = pyStrip "http://a ".data
    ∧ (normalize_url "http://a ".data = "http://a ".data
        ↔ pyStrip "http://a ".data = "http://a ".data) :=
  (normalize_url_amended "http://a ".data).2.1 (by decide)

/-! The Snapshot Capturer (src/subshot.py take_screenshot).

One browser attempt is an external event; its result is abstracted as an
`Outcome`: completing normally, raising PlaywrightTimeout, or raising any
other exception carrying a message text.  A whole run of take_screenshot is
driven by an attempt-indexed outcome environment. -/

/-- Python substring test: the `in` operator on str. -/
def containsSub (pat s : List Char) : Bool :=
  pat.isPrefixOf s ||
    match s with
    | [] => false
    | _ :: rest => containsSub pat rest

/-- Python str.lower, modelled on the ASCII letters (the only characters the
classification patterns consist of). -/
def pyLower (s : List Char) : List Char :=
  s.map Char.toLower

/-- The except-Exception branch of take_screenshot (src/subshot.py lines
289-301): simplify common error messages, else truncate to 100 characters. -/
def classify_error (msg : List Char) : List Char :=
  if containsSub "net::ERR_NAME_NOT_RESOLVED".data msg then "DNS resolution failed".data
  else if containsSub "net::ERR_CONNECTION_REFUSED".data msg then "Connection refused".data
  else if containsSub "net::ERR_CONNECTION_TIMED_OUT".data msg then "Connection timed out".data
  else if containsSub "SSL".data msg || containsSub "certificate".data (pyLower msg) then
    "SSL/Certificate error".data
  else msg.take 100

/-- The fractional part of Python repr(r/1000) for 0 < r < 1000: the three
zero-padded decimal digits of r with trailing zeros removed. -/
def pad3 (r : Nat) : List Char :=
  List.replicate (3 - (Nat.repr r).data.length) '0' ++ (Nat.repr r).data

/-- Python repr(timeout/1000): true division of the millisecond timeout, the
quotient printed as a float.  Faithful to CPython float repr for every timeout
below 10^12 ms, where the quotient at three decimal places is the shortest
decimal that round-trips through the nearest double. -/
def pySecondsRepr (timeout : Nat) : List Char :=
  if timeout % 1000 = 0 then (Nat.repr (timeout / 1000)).data ++ ".0".data
  else (Nat.repr (timeout / 1000)).data ++ ".".data
    ++ dropTrail (fun c => c == '0') (pad3 (timeout % 1000))

/-- The PlaywrightTimeout branch of take_screenshot (line 288). -/
def timeout_reason (timeout : Nat) : List Char :=
  "Timeout after ".data ++ pySecondsRepr timeout ++ "s".data

/-- Result of one browser attempt: normal completion, PlaywrightTimeout, or
another exception with its str(e) text. -/
inductive Outcome
  | ok
  | timeoutExc
  | exc (msg : List Char)
  deriving DecidableEq

/-- What take_screenshot stores in last_error for a given attempt outcome. -/
def outcome_error (timeout : Nat) : Outcome → Option (List Char)
  | Outcome.ok => none
  | Outcome.timeoutExc => some (timeout_reason timeout)
  | Outcome.exc msg => some (classify_error msg)

/-- The while-loop of take_screenshot.  `attempt` is the number of attempts
already made, `r` the number of loop iterations still allowed
(retries - attempt), `last_error` the stored error.  The result pairs the
Python return value (success flag, error) with the number of attempts made. -/
def ts_go (outcomes : Nat → Outcome) (timeout : Nat) :
    Nat → Nat → Option (List Char) → (Bool × Option (List Char)) × Nat
  | attempt, 0, last_error => ((false, last_error), attempt)
  | attempt, r + 1, _last_error =>
    match outcomes (attempt + 1) with
    | Outcome.ok => ((true, none), attempt + 1)
    | Outcome.timeoutExc => ts_go outcomes timeout (attempt + 1) r (some (timeout_reason timeout))
    | Outcome.exc msg => ts_go outcomes timeout (attempt + 1) r (some (classify_error msg))

/-- src/subshot.py take_screenshot: run the attempt loop `while attempt <
retries` starting from attempt = 0 with last_error = None.  The url and output
path parameters of the Python function only feed the browser interaction,
which the outcome environment abstracts (outcomes k is what attempt number k
does for this url and output path). -/
def take_screenshot (outcomes : Nat → Outcome) (retries : Int) (timeout : Nat) :
    (Bool × Option (List Char)) × Nat :=
  ts_go outcomes timeout 0 retries.toNat none

theorem ts_go_fail_spec (outcomes : Nat → Outcome) (timeout : Nat) :
    ∀ (r attempt : Nat) (last : Option (List Char)),
      (∀ k, attempt < k → k ≤ attempt + r → outcomes k ≠ Outcome.ok) →
      ts_go outcomes timeout attempt r last
        = ((false, if r = 0 then last else outcome_error timeout (outcomes (attempt + r))),
            attempt + r) := by
  intro r
  induction r with
  | zero =>
    intro attempt last _
    simp [ts_go]
  | succ n ih =>
    intro attempt last hfail
    rw [ts_go]
    have h1 : outcomes (attempt + 1) ≠ Outcome.ok :=
      hfail (attempt + 1) (by omega) (by omega)
    rw [if_neg (show ¬ (n + 1 = 0) by omega)]
    have e : attempt + (n + 1) = attempt + 1 + n := by omega
    rw [e]
    cases ho : outcomes (attempt + 1) with
    | ok => exact absurd ho h1
    | timeoutExc =>
      show ts_go outcomes timeout (attempt + 1) n (some (timeout_reason timeout))
        = ((false, outcome_error timeout (outcomes (attempt + 1 + n))), attempt + 1 + n)
      rw [ih (attempt + 1) (some (timeout_reason timeout))
        (fun k hk1 hk2 => hfail k (by omega) (by omega))]
      cases n with
      | zero => simp [ho, outcome_error]
      | succ m => rw [if_neg (show ¬ (m + 1 = 0) by omega)]
    | exc msg =>
      show ts_go outcomes timeout (attempt + 1) n (some (classify_error msg))
        = ((false, outcome_error timeout (outcomes (attempt + 1 + n))), attempt + 1 + n)
      rw [ih (attempt + 1) (some (classify_error msg))
        (fun k hk1 hk2 => hfail k (by omega) (by omega))]
      cases n with
      | zero => simp [ho, outcome_error]
      | succ m => rw [if_neg (show ¬ (m + 1 = 0) by omega)]

theorem ts_go_success_spec (outcomes : Nat → Outcome) (timeout : Nat) :
    ∀ (r attempt : Nat) (k : Nat) (last : Option (List Char)),
      attempt < k → k ≤ attempt + r → outcomes k = Outcome.ok →
      (∀ j, attempt < j → j < k → outcomes j ≠ Outcome.ok) →
      ts_go outcomes timeout attempt r last = ((true, none), k) := by
  intro r
  induction r with
  | zero =>
    intro attempt k last h1 h2 _ _
    omega
  | succ n ih =>
    intro attempt k last h1 h2 hok hmin
    rw [ts_go]
    by_cases hk : k = attempt + 1
    · rw [← hk, hok]
    · have hfirst : outcomes (attempt + 1) ≠ Outcome.ok :=
        hmin (attempt + 1) (by omega) (by omega)
      cases ho : outcomes (attempt + 1) with
      | ok => exact absurd ho hfirst
      | timeoutExc =>
        exact ih (attempt + 1) k _ (by omega) (by omega) hok
          (fun j hj1 hj2 => hmin j (by omega) hj2)
      | exc msg =>
        exact ih (attempt + 1) k _ (by omega) (by omega) hok
          (fun j hj1 hj2 => hmin j (by omega) hj2)

theorem ts_go_bound (outcomes : Nat → Outcome) (timeout : Nat) :
    ∀ (r attempt : Nat) (last : Option (List Char)),
      (ts_go outcomes timeout attempt r last).2 ≤ attempt + r := by
  intro r
  induction r with
  | zero =>
    intro attempt last
    simp [ts_go]
  | succ n ih =>
    intro attempt last
    rw [ts_go]
    cases outcomes (attempt + 1) with
    | ok =>
      show attempt + 1 ≤ attempt + (n + 1)
      omega
    | timeoutExc =>
      show (ts_go outcomes timeout (attempt + 1) n (some (timeout_reason timeout))).2
        ≤ attempt + (n + 1)
      have := ih (attempt + 1) (some (timeout_reason timeout))
      omega
    | exc msg =>
      show (ts_go outcomes timeout (attempt + 1) n (some (classify_error msg))).2
        ≤ attempt + (n + 1)
      have := ih (attempt + 1) (some (classify_error msg))
      omega

theorem ts_go_some (outcomes : Nat → Outcome) (timeout : Nat) :
    ∀ (r attempt : Nat) (e : List Char),
      (ts_go outcomes timeout attempt r (some e)).1.2 ≠ none
      ∨ (ts_go outcomes timeout attempt r (some e)).1.1 = true := by
  intro r
  induction r with
  | zero =>
    intro attempt e
    simp [ts_go]
  | succ n ih =>
    intro attempt e
    rw [ts_go]
    cases outcomes (attempt + 1) with
    | ok => simp
    | timeoutExc => exact ih (attempt + 1) (timeout_reason timeout)
    | exc msg => exact ih (attempt + 1) (classify_error msg)

theorem ts_go_none_start (outcomes : Nat → Outcome) (timeout : Nat) :
    ∀ (r attempt : Nat),
      (ts_go outcomes timeout attempt r none).1.2 = none →
      (ts_go outcomes timeout attempt r none).1.1 = true
      ∨ (ts_go outcomes timeout attempt r none).2 = attempt := by
  intro r attempt h
  cases r with
  | zero =>
    right
    rfl
  | succ n =>
    rw [ts_go] at h ⊢
    revert h
    cases ho : outcomes (attempt + 1) with
    | ok =>
      intro _
      left
      rfl
    | timeoutExc =>
      intro h
      rcases ts_go_some outcomes timeout n (attempt + 1) (timeout_reason timeout) with hc | hc
      · exact absurd h hc
      · left
        exact hc
    | exc msg =>
      intro h
      rcases ts_go_some outcomes timeout n (attempt + 1) (classify_error msg) with hc | hc
      · exact absurd h hc
      · left
        exact hc

/-- Claim C3: take_screenshot performs at most `retries` capture attempts; if
every attempt fails it returns (False, e) with e the classified error of the
last attempt only, and a successful attempt returns (True, None) immediately,
with no further attempts. -/
theorem take_screenshot_retry_contract (outcomes : Nat → Outcome) (retries : Int) (timeout : Nat) :
    (take_screenshot outcomes retries timeout).2 ≤ retries.toNat
    ∧ ((1 ≤ retries ∧ ∀ k, 1 ≤ k → k ≤ retries.toNat → outcomes k ≠ Outcome.ok) →
        take_screenshot outcomes retries timeout
          = ((false, outcome_error timeout (outcomes retries.toNat)), retries.toNat))
    ∧ (∀ k, 1 ≤ k → k ≤ retries.toNat → outcomes k = Outcome.ok →
        (∀ j, 1 ≤ j → j < k → outcomes j ≠ Outcome.ok) →
        take_screenshot outcomes retries timeout = ((true, none), k)) := by
  refine ⟨?_, ?_, ?_⟩
  · have h := ts_go_bound outcomes timeout retries.toNat 0 none
    unfold take_screenshot
    omega
  · rintro ⟨hr, hfail⟩
    have hr0 : ¬ retries.toNat = 0 := by omega
    unfold take_screenshot
    rw [ts_go_fail_spec outcomes timeout retries.toNat 0 none
      (fun k hk1 hk2 => hfail k (by omega) (by omega))]
    rw [if_neg hr0]
    simp
  · intro k hk1 hk2 hok hmin
    unfold take_screenshot
    exact ts_go_success_spec outcomes timeout retries.toNat 0 k none (by omega) (by omega) hok
      (fun j hj1 hj2 => hmin j (by omega) hj2)

/-- Witness for C3: with both attempts succeeding and retries = 2, the first
attempt returns success immediately. -/
theorem take_screenshot_retry_contract_used :
    (take_screenshot (fun _ => Outcome.ok) 2 30000).2 ≤ (2 : Int).toNat
    ∧ take_screenshot (fun _ => Outcome.ok) 2 30000 = ((true, none), 1) := by
  refine ⟨(take_screenshot_retry_contract (fun _ => Outcome.ok) 2 30000).1, ?_⟩
  exact (take_screenshot_retry_contract (fun _ => Outcome.ok) 2 30000).2.2 1 (by decide)
    (by decide) rfl (fun j hj1 hj2 => absurd hj1 (by omega))

/-- Claim C2: failure classification is a deterministic function of the
exception, checked in the stated priority order; a timeout produces
"Timeout after Ns" with the configured timeout (in seconds, as Python prints
timeout/1000) substituted; any unrecognized message is truncated to at most
100 characters. -/
theorem capture_error_classification (timeout : Nat) (retries : Int) (msg : List Char)
    (hdiv : timeout % 1000 = 0) :
    (1 ≤ retries →
      (take_screenshot (fun _ => Outcome.timeoutExc) retries timeout).1
        = (false, some ("Timeout after ".data ++ (Nat.repr (timeout / 1000)).data ++ ".0s".data)))
    ∧ (containsSub "net::ERR_NAME_NOT_RESOLVED".data msg = true →
        classify_error msg = "DNS resolution failed".data)
    ∧ (containsSub "net::ERR_NAME_NOT_RESOLVED".data msg = false →
        containsSub "net::ERR_CONNECTION_REFUSED".data msg = true →
        classify_error msg = "Connection refused".data)
    ∧ (containsSub "net::ERR_NAME_NOT_RESOLVED".data msg = false →
        containsSub "net::ERR_CONNECTION_REFUSED".data msg = false →
        containsSub "net::ERR_CONNECTION_TIMED_OUT".data msg = true →
        classify_error msg = "Connection timed out".data)
    ∧ (containsSub "net::ERR_NAME_NOT_RESOLVED".data msg = false →
        containsSub "net::ERR_CONNECTION_REFUSED".data msg = false →
        containsSub "net::ERR_CONNECTION_TIMED_OUT".data msg = false →
        (containsSub "SSL".data msg || containsSub "certificate".data (pyLower msg)) = true →
        classify_error msg = "SSL/Certificate error".data)
    ∧ (containsSub "net::ERR_NAME_NOT_RESOLVED".data msg = false →
        containsSub "net::ERR_CONNECTION_REFUSED".data msg = false →
        containsSub "net::ERR_CONNECTION_TIMED_OUT".data msg = false →
        (containsSub "SSL".data msg || containsSub "certificate".data (pyLower msg)) = false →
        classify_error msg = msg.take 100 ∧ (classify_error msg).length ≤ 100) := by
  refine ⟨?_, ?_, ?_, ?_, ?_, ?_⟩
  · intro hr
    unfold take_screenshot
    rw [ts_go_fail_spec (fun _ => Outcome.timeoutExc) timeout retries.toNat 0 none
      (fun k _ _ => by simp), if_neg (show ¬ retries.toNat = 0 by omega)]
    show (false, outcome_error timeout Outcome.timeoutExc)
      = (false, some ("Timeout after ".data ++ (Nat.repr (timeout / 1000)).data ++ ".0s".data))
    have e1 : (".0".data : List Char) = ['.', '0'] := rfl
    have e2 : ("s".data : List Char) = ['s'] := rfl
    have e3 : (".0s".data : List Char) = ['.', '0', 's'] := rfl
    simp [outcome_error, timeout_reason, pySecondsRepr, hdiv, e1, e2, e3]
  · intro h1
    simp [classify_error, h1]
  · intro h1 h2
    simp [classify_error, h1, h2]
  · intro h1 h2 h3
    simp [classify_error, h1, h2, h3]
  · intro h1 h2 h3 h4
    rcases Bool.or_eq_true_iff.mp h4 with h5 | h5
    · simp [classify_error, h1, h2, h3, h5]
    · simp [classify_error, h1, h2, h3, h5]
  · intro h1 h2 h3 h4
    rcases Bool.or_eq_false_iff.mp h4 with ⟨h5, h6⟩
    constructor
    · simp [classify_error, h1, h2, h3, h5, h6]
    · simp [classify_error, h1, h2, h3, h5, h6]

/-- Witness for C2 at the configured values (retries = 2, timeout 30000 ms). -/
theorem capture_error_classification_used :
    (take_screenshot (fun _ => Outcome.timeoutExc) 2 30000).1
      = (false, some ("Timeout after ".data ++ (Nat.repr (30000 / 1000)).data ++ ".0s".data))
    ∧ classify_error "net::ERR_CONNECTION_REFUSED at https://x".data
      = "Connection refused".data := by
  constructor
  · exact (capture_error_classification 30000 2
      "net::ERR_CONNECTION_REFUSED at https://x".data (by decide)).1 (by decide)
  · exact (capture_error_classification 30000 2
      "net::ERR_CONNECTION_REFUSED at https://x".data (by decide)).2.2.1 (by decide) (by decide)

/-- Counterexample for C10 as stated: with one retry and an exception whose
str(e) text is empty, the genuine failure carries some "" — an empty, not
non-empty, reason string. -/
theorem take_screenshot_empty_reason_cex :
    take_screenshot (fun _ => Outcome.exc []) 1 30000 = ((false, some []), 1) := by
  decide

/-- Claim C10 (amended): with retries ≤ 0, take_screenshot performs no capture
attempt and returns (False, None); a result carrying no reason otherwise only
arises from a success — every genuine failure carries a reason string, which
can however be empty when the exception text is empty. -/
theorem take_screenshot_zero_retries (outcomes : Nat → Outcome) (retries : Int) (timeout : Nat) :
    (retries ≤ 0 → take_screenshot outcomes retries timeout = ((false, none), 0))
    ∧ ((take_screenshot outcomes retries timeout).1.2 = none →
        (take_screenshot outcomes retries timeout).1.1 = true
        ∨ (take_screenshot outcomes retries timeout).2 = 0) := by
  constructor
  · intro h
    have h0 : retries.toNat = 0 := by omega
    unfold take_screenshot
    rw [h0]
    rfl
  · intro hnone
    exact ts_go_none_start outcomes timeout retries.toNat 0 hnone

/-- Witness for the amended C10: retries = -1 yields (False, None) after zero
attempts. -/
theorem take_screenshot_zero_retries_used :
    take_screenshot (fun _ => Outcome.ok) (-1) 30000 = ((false, none), 0)
    ∧ ((take_screenshot (fun _ => Outcome.ok) (-1) 30000).1.1 = true
        ∨ (take_screenshot (fun _ => Outcome.ok) (-1) 30000).2 = 0) := by
  constructor
  · exact (take_screenshot_zero_retries (fun _ => Outcome.ok) (-1) 30000).1 (by decide)
  · exact (take_screenshot_zero_retries (fun _ => Outcome.ok) (-1) 30000).2 (by decide)

/-! The Batch Snapshot Driver (src/subshot.py process_subdomains).

The browser behaviour for the i-th entry is abstracted by an environment
`env : Nat → Nat → Outcome`: env i k is the outcome of attempt number k of the
capture for entry number i (the entry's url and output path determine it in
the real run; the counting claims hold for every such environment). -/

/-- The per-entry loop of process_subdomains: i is the 1-based entry index,
and the two accumulators are the success and failure counters.  Each entry is
normalized, given its sanitized .png filename, captured via take_screenshot
with retries = 2 and timeout in milliseconds, and exactly one counter is
incremented. -/
def process_go (env : Nat → Nat → Outcome) (timeout : Nat) :
    Nat → List (List Char) → Nat → Nat → Nat × Nat
  | _, [], success_count, fail_count => (success_count, fail_count)
  | i, subdomain :: rest, success_count, fail_count =>
    let _url := normalize_url subdomain
    let _filename := sanitize_filename subdomain ++ ".png".data
    let result := take_screenshot (env i) 2 (timeout * 1000)
    if result.1.1 then process_go env timeout (i + 1) rest (success_count + 1) fail_count
    else process_go env timeout (i + 1) rest success_count (fail_count + 1)

/-- src/subshot.py process_subdomains: fold the capture loop over the list
starting at index 1 with both counters at zero, returning
(success_count, fail_count). -/
def process_subdomains (env : Nat → Nat → Outcome) (subdomains : List (List Char))
    (timeout : Nat) : Nat × Nat :=
  process_go env timeout 1 subdomains 0 0

theorem process_go_sum (env : Nat → Nat → Outcome) (timeout : Nat) :
    ∀ (subs : List (List Char)) (i s f : Nat),
      (process_go env timeout i subs s f).1 + (process_go env timeout i subs s f).2
        = s + f + subs.length := by
  intro subs
  induction subs with
  | nil =>
    intro i s f
    simp [process_go]
  | cons a rest ih =>
    intro i s f
    rw [process_go]
    by_cases hr : (take_screenshot (env i) 2 (timeout * 1000)).1.1
    · rw [if_pos hr]
      rw [ih (i + 1) (s + 1) f]
      simp
      omega
    · rw [if_neg hr]
      rw [ih (i + 1) s (f + 1)]
      simp
      omega

theorem load_list_length (lines : List (List Char)) :
    (load_list lines).length = lines.countP fun l => !(pyStrip l).isEmpty := by
  induction lines with
  | nil => rfl
  | cons a rest ih =>
    rw [load_list, List.map_cons, List.filter_cons, List.countP_cons]
    by_cases h : (pyStrip a).isEmpty
    · simp only [h, Bool.not_true, Bool.false_eq_true, if_false, Nat.add_zero]
      exact ih
    · have hb : (pyStrip a).isEmpty = false := Bool.eq_false_iff.mpr h
      simp only [hb, Bool.not_false, if_true, List.length_cons]
      exact congrArg (fun n => n + 1) ih

/-- Claim C1: for every non-empty input, the Batch Snapshot Driver applied to
the loaded list returns counters summing to the number of non-blank input
lines — blank lines are dropped by load_list, every remaining entry is
attempted, each attempt increments exactly one counter, and no entry stops the
loop. -/
theorem batch_counts_match_nonblank_lines (env : Nat → Nat → Outcome) (timeout : Nat)
    (lines : List (List Char)) (_hne : lines ≠ []) :
    (process_subdomains env (load_list lines) timeout).1
      + (process_subdomains env (load_list lines) timeout).2
      = lines.countP fun l => !(pyStrip l).isEmpty := by
  unfold process_subdomains
  rw [process_go_sum env timeout (load_list lines) 1 0 0]
  rw [load_list_length]
  simp

/-- Witness for C1: three raw lines, one of them blank, give counters summing
to two. -/
theorem batch_counts_match_nonblank_lines_used :
    (process_subdomains (fun _ _ => Outcome.ok)
        (load_list ["a.com".data, "   ".data, " b.com ".data]) 30).1
      + (process_subdomains (fun _ _ => Outcome.ok)
        (load_list ["a.com".data, "   ".data, " b.com ".data]) 30).2
      = 2 := by
  have h := batch_counts_match_nonblank_lines (fun _ _ => Outcome.ok) 30
    ["a.com".data, "   ".data, " b.com ".data] (by simp)
  rw [h]
  decide

/-! The pipeline side (src/fastrec.py): run_subshot, the stage sequence of
run_recon, the nuclei placeholder gate, and run_command. -/

/-- Environment of one run_subshot call: what check_subshot_available returns,
whether the playwright package is importable, whether alive_subs.txt exists
and its size, and whether spawning the subshot subprocess raises (the body of
the try block; its exception is caught and turned into False). -/
structure SubshotEnv where
  subshot_path : Option (List Char)
  playwright_installed : Bool
  alive_exists : Bool
  alive_size : Nat
  popen_raises : Bool
  deriving DecidableEq

/-- src/fastrec.py run_subshot: four guard checks each return False (skip)
before the subprocess is ever spawned; the spawn itself is wrapped in
try/except returning False on any exception, True otherwise. -/
def run_subshot (env : SubshotEnv) : Bool :=
  match env.subshot_path with
  | none => false
  | some _ =>
    if !env.playwright_installed then false
    else if !env.alive_exists then false
    else if env.alive_size == 0 then false
    else if env.popen_raises then false
    else true

/-- The seven numbered steps of run_recon plus the completion summary.  The
snapshot stage records run_subshot's return value; step 7 is either the nuclei
scan or the loud placeholder warning. -/
inductive Stage
  | subfinderHttpx
  | snapshot (took : Bool)
  | gauKatana
  | combineURLs
  | xssKxss
  | jsExtract
  | nucleiScan
  | nucleiSkipWarning
  | completionSummary
  deriving DecidableEq

/-- The configuration an individual run of run_recon sees. -/
structure ReconEnv where
  subshotEnv : SubshotEnv
  nucleiTemplatesPath : List Char
  deriving DecidableEq

/-- The configured placeholder value of NUCLEI_TEMPLATES_PATH
(src/fastrec.py line 19). -/
def NUCLEI_TEMPLATES_PATH : List Char :=
  "/path/nuclei-templates/http/exposures/".data

/-- The stage sequence run_recon executes after target setup: steps 1 through
6 run unconditionally in order (run_subshot's return value is discarded), step
7 is the nuclei scan unless the template path still contains the '/path'
placeholder — then only the warning — and the completion summary always runs. -/
def run_recon_trace (env : ReconEnv) : List Stage :=
  [Stage.subfinderHttpx, Stage.snapshot (run_subshot env.subshotEnv),
    Stage.gauKatana, Stage.combineURLs, Stage.xssKxss, Stage.jsExtract]
  ++ (if containsSub "/path".data env.nucleiTemplatesPath then [Stage.nucleiSkipWarning]
      else [Stage.nucleiScan])
  ++ [Stage.completionSummary]

/-- Claim C6: whenever the alive-host list is missing or empty or the browser
automation layer (subshot or playwright) is unavailable, run_subshot returns
False — the skip indicator — without consulting the fallible subprocess spawn,
and the sequencer still executes every later stage. -/
theorem snapshot_skip_not_fail (env : ReconEnv)
    (h : env.subshotEnv.alive_exists = false ∨ env.subshotEnv.alive_size = 0
      ∨ env.subshotEnv.subshot_path = none ∨ env.subshotEnv.playwright_installed = false) :
    run_subshot env.subshotEnv = false
    ∧ Stage.gauKatana ∈ run_recon_trace env
    ∧ Stage.combineURLs ∈ run_recon_trace env
    ∧ Stage.xssKxss ∈ run_recon_trace env
    ∧ Stage.jsExtract ∈ run_recon_trace env
    ∧ Stage.completionSummary ∈ run_recon_trace env := by
  have hskip : run_subshot env.subshotEnv = false := by
    cases hsp : env.subshotEnv.subshot_path with
    | none => simp [run_subshot, hsp]
    | some v =>
      rcases h with h | h | h | h
      · simp [run_subshot, hsp, h]
      · simp [run_subshot, hsp, h]
      · simp [hsp] at h
      · simp [run_subshot, hsp, h]
  refine ⟨hskip, ?_, ?_, ?_, ?_, ?_⟩ <;>
    by_cases hc : containsSub "/path".data env.nucleiTemplatesPath <;>
      simp [run_recon_trace, hc]

/-- Witness for C6: a concrete environment with no subshot available. -/
theorem snapshot_skip_not_fail_used :
    run_subshot ⟨none, false, false, 0, false⟩ = false
    ∧ Stage.completionSummary
        ∈ run_recon_trace ⟨⟨none, false, false, 0, false⟩, NUCLEI_TEMPLATES_PATH⟩ := by
  have h := snapshot_skip_not_fail ⟨⟨none, false, false, 0, false⟩, NUCLEI_TEMPLATES_PATH⟩
    (Or.inl rfl)
  exact ⟨h.1, h.2.2.2.2.2⟩

/-- Claim C7: the nuclei stage runs exactly when the configured template path
does not contain the '/path' placeholder; when the placeholder is present the
stage is replaced by the loud warning and the run still reaches the completion
summary; the shipped NUCLEI_TEMPLATES_PATH constant still contains the
placeholder. -/
theorem nuclei_placeholder_gate (env : ReconEnv) :
    (Stage.nucleiScan ∈ run_recon_trace env
      ↔ containsSub "/path".data env.nucleiTemplatesPath = false)
    ∧ (containsSub "/path".data env.nucleiTemplatesPath = true →
        Stage.nucleiSkipWarning ∈ run_recon_trace env
        ∧ Stage.completionSummary ∈ run_recon_trace env)
    ∧ containsSub "/path".data NUCLEI_TEMPLATES_PATH = true := by
  refine ⟨?_, ?_, by decide⟩
  · by_cases hc : containsSub "/path".data env.nucleiTemplatesPath <;>
      simp [run_recon_trace, hc]
  · intro hc
    constructor <;> simp [run_recon_trace, hc]

/-- Witness for C7: with the shipped placeholder path, the warning replaces
the scan and the summary still runs. -/
theorem nuclei_placeholder_gate_used :
    Stage.nucleiSkipWarning
        ∈ run_recon_trace ⟨⟨none, true, true, 1, false⟩, NUCLEI_TEMPLATES_PATH⟩
    ∧ Stage.completionSummary
        ∈ run_recon_trace ⟨⟨none, true, true, 1, false⟩, NUCLEI_TEMPLATES_PATH⟩ :=
  (nuclei_placeholder_gate ⟨⟨none, true, true, 1, false⟩, NUCLEI_TEMPLATES_PATH⟩).2.1
    (by decide)

/-- Environment of one run_command call: the optional tee output file, whether
opening it raises, whether subprocess.Popen raises, and the returncode the
process exits with when it launches.  Streaming the combined output is
abstracted as infallible; the failure points the source handles are the open,
the spawn and the exit code. -/
structure CmdEnv where
  output_file : Option (List Char)
  open_raises : Bool
  popen_raises : Bool
  returncode : Int
  deriving DecidableEq

/-- The try-block body of run_command (src/fastrec.py lines 379-414): open the
output file if requested, spawn the process, then return False on a non-zero
exit code and True otherwise; exceptions propagate out of the body. -/
def run_command_body (env : CmdEnv) : Except Unit Bool :=
  if env.output_file.isSome && env.open_raises then Except.error ()
  else if env.popen_raises then Except.error ()
  else if env.returncode != 0 then Except.ok false
  else Except.ok true

/-- src/fastrec.py run_command: the whole body is wrapped in try/except
Exception, which reports the error and returns False — no exception reaches
the caller. -/
def run_command (env : CmdEnv) : Bool :=
  match run_command_body env with
  | Except.ok b => b
  | Except.error _ => false

/-- Claim C8: run_command returns True exactly when the process launches (the
optional tee file opens and Popen does not raise) and exits with status zero;
every caught exception becomes False rather than propagating. -/
theorem run_command_exit_contract (env : CmdEnv) :
    (run_command env = true ↔
      ((env.output_file = none ∨ env.open_raises = false)
        ∧ env.popen_raises = false ∧ env.returncode = 0))
    ∧ (∀ e, run_command_body env = Except.error e → run_command env = false) := by
  constructor
  · unfold run_command run_command_body
    rcases env with ⟨ofile, oraise, praise, rc⟩
    cases ofile <;> cases oraise <;> cases praise <;>
      by_cases hrc : rc = 0 <;> simp [hrc]
  · intro e he
    unfold run_command
    rw [he]

/-- Witness for C8: no tee file, successful launch, exit status zero. -/
theorem run_command_exit_contract_used :
    run_command ⟨none, false, false, 0⟩ = true :=
  (run_command_exit_contract ⟨none, false, false, 0⟩).1.mpr
    ⟨Or.inl rfl, rfl, rfl⟩
